import Mathlib

/-!
Verification of the Handwriting-to-Markdown ingestion pipeline.

Shallow embedding of the repository's core: the OneDrive remote-store
client (app/onedrive_client.py), the note-extraction pipeline
(app/note_processor.py together with app/image_processor_gh.py), and the
ingestion sweep (app/process_notes.py).  Remote HTTP responses and model
completions are passed in explicitly (as response values or oracle
functions); mutable object state becomes explicit state passing.
-/

namespace HandwritingWorkflow

/-! ## HTTP layer (requests) -/

/-- Bytes of a response body, modelled as a list of byte values. -/
abbrev Bytes := List Nat

/-- An HTTP response: status code and body content. -/
structure HttpResponse where
  status : Nat
  content : Bytes
deriving DecidableEq, Repr

/-- The single exception class the requests library raises from
raise_for_status: HTTPError, carrying the response status. -/
inductive ReqError where
  | httpError (status : Nat)
deriving DecidableEq, Repr

/-- Embedding of response.raise_for_status(): raises HTTPError exactly for
4xx client errors and 5xx server errors, and is silent otherwise. -/
def raiseForStatus (r : HttpResponse) : Except ReqError Unit :=
  if 400 ≤ r.status ∧ r.status < 600 then Except.error (ReqError.httpError r.status)
  else Except.ok ()

/-- Embedding of OneDriveClient.download_file: a single GET of the content
URL, then raise_for_status, then return the body bytes. -/
def download_file (r : HttpResponse) : Except ReqError Bytes :=
  match raiseForStatus r with
  | Except.error e => Except.error e
  | Except.ok _ => Except.ok r.content

/-- The exception class name of a ReqError, erasing the payload: this is
what an except-clause can select on. -/
def exceptionClass : ReqError → String
  | ReqError.httpError _ => "HTTPError"

/-- The exception class of a download result, none when it succeeded. -/
def dlErrClass (x : Except ReqError Bytes) : Option String :=
  match x with
  | Except.error e => some (exceptionClass e)
  | Except.ok _ => none

/-! ## Path mapping (OneDriveClient._get_drive_path) -/

/-- Embedding of str.lstrip applied with a single character: drops every
leading occurrence of that character. -/
def lstripChar (c : Char) : List Char → List Char
  | [] => []
  | x :: rest => if x = c then lstripChar c rest else x :: rest

/-- Embedding of OneDriveClient._get_drive_path: strip leading slashes;
the empty path maps to the drive root, any other path to the
colon-delimited path reference. -/
def get_drive_path (folder_path : String) : String :=
  let fp := String.mk (lstripChar '/' folder_path.toList)
  if fp = "" then "/drive/root" else "/drive/root:/" ++ fp ++ ":"

/-! ## Existence probe (OneDriveClient.file_exists) -/

/-- Embedding of OneDriveClient.file_exists applied to the metadata GET
response: the code returns response.status_code == 200 and has no raise
path, so the embedding is a total Bool-valued function. -/
def file_exists (r : HttpResponse) : Bool :=
  r.status == 200

/-! ## Remote drive state and folder creation
(OneDriveClient._ensure_folder_exists, _create_folder, upload_file)

The remote store is modelled as the set of paths that currently exist;
the server answers a metadata GET with 200 when the path exists and 404
otherwise, and answers a create-folder POST with 201 on creation and 409
when the folder already exists. -/

/-- The set of existing remote paths. -/
structure DriveState where
  paths : List String
deriving DecidableEq, Repr

/-- The status of a metadata GET for a path: 200 when present, else 404. -/
def serverGetStatus (st : DriveState) (p : String) : HttpResponse :=
  if p ∈ st.paths then ⟨200, []⟩ else ⟨404, []⟩

/-- A request issued to the remote store. -/
inductive DriveReq where
  | probe (path : String)
  | createFolder (path : String)
  | putContent (path : String)
deriving DecidableEq, Repr

/-- Result of a stateful client operation: the new remote state, the
ordered requests issued, and the exception raised, if any. -/
structure OpResult where
  state : DriveState
  reqs : List DriveReq
  err : Option ReqError
deriving DecidableEq, Repr

/-- Server side of the create-folder POST: 409 when the path already
exists, otherwise the path is created and 201 returned. -/
def serverCreateFolder (st : DriveState) (p : String) : DriveState × Nat :=
  if p ∈ st.paths then (st, 409) else (⟨p :: st.paths⟩, 201)

/-- Embedding of OneDriveClient._create_folder: POST the folder to its
parent's children collection (the server-side effect is creation of the
full path); a 409 response is logged as already-exists and treated as
success, any other status goes through raise_for_status. -/
def create_folder (st : DriveState) (folder_path : String) : OpResult :=
  let res := serverCreateFolder st folder_path
  if res.2 = 409 then ⟨res.1, [DriveReq.createFolder folder_path], none⟩
  else
    match raiseForStatus ⟨res.2, []⟩ with
    | Except.error e => ⟨res.1, [DriveReq.createFolder folder_path], some e⟩
    | Except.ok _ => ⟨res.1, [DriveReq.createFolder folder_path], none⟩

/-- The cumulative path built while walking segments: current_path is
extended with "/part" unless it is still empty. -/
def joinPath (current part : String) : String :=
  if current = "" then part else current ++ "/" ++ part

/-- Embedding of the for-loop of _ensure_folder_exists: walk the path
segments in order, skip empty segments, extend the cumulative prefix, and
create each prefix that file_exists reports absent. -/
def walkPrefixes (st : DriveState) (current : String) : List String → OpResult
  | [] => ⟨st, [], none⟩
  | part :: rest =>
    if part = "" then walkPrefixes st current rest
    else
      if file_exists (serverGetStatus st (joinPath current part)) then
        ⟨(walkPrefixes st (joinPath current part) rest).state,
         DriveReq.probe (joinPath current part) ::
           (walkPrefixes st (joinPath current part) rest).reqs,
         (walkPrefixes st (joinPath current part) rest).err⟩
      else
        match (create_folder st (joinPath current part)).err with
        | some e =>
          ⟨(create_folder st (joinPath current part)).state,
           DriveReq.probe (joinPath current part) ::
             (create_folder st (joinPath current part)).reqs,
           some e⟩
        | none =>
          ⟨(walkPrefixes (create_folder st (joinPath current part)).state
              (joinPath current part) rest).state,
           DriveReq.probe (joinPath current part) ::
             ((create_folder st (joinPath current part)).reqs ++
               (walkPrefixes (create_folder st (joinPath current part)).state
                 (joinPath current part) rest).reqs),
           (walkPrefixes (create_folder st (joinPath current part)).state
             (joinPath current part) rest).err⟩

/-- Embedding of str.split applied with a single separator character,
collecting the segments between occurrences; the accumulator holds the
current segment reversed. -/
def splitCharAux (c : Char) : List Char → List Char → List (List Char)
  | [], acc => [acc.reverse]
  | x :: rest, acc =>
    if x = c then acc.reverse :: splitCharAux c rest []
    else splitCharAux c rest (x :: acc)

/-- Embedding of str.split with a single separator character. -/
def splitChar (c : Char) (s : String) : List String :=
  (splitCharAux c s.toList []).map String.mk

/-- Embedding of OneDriveClient._ensure_folder_exists: empty path is a
no-op; if the full folder path already exists, return; otherwise split on
slashes and walk the cumulative prefixes root to leaf. -/
def ensure_folder_exists (st : DriveState) (folder_path : String) : OpResult :=
  if folder_path = "" then ⟨st, [], none⟩
  else if file_exists (serverGetStatus st folder_path) then
    ⟨st, [DriveReq.probe folder_path], none⟩
  else
    let r := walkPrefixes st "" (splitChar '/' folder_path)
    ⟨r.state, DriveReq.probe folder_path :: r.reqs, r.err⟩

/-- Embedding of str.rsplit with separator slash and maxsplit one: some
(before, after) splitting at the last slash, none when the string has no
slash (the one-element rsplit result). -/
def splitLastSlash : List Char → Option (List Char × List Char)
  | [] => none
  | c :: rest =>
    match splitLastSlash rest with
    | some (a, b) => some (c :: a, b)
    | none => if c = '/' then some ([], rest) else none

/-- Embedding of OneDriveClient.upload_file: when the destination path has
a parent component, ensure the parent folder exists first; then PUT the
content at the destination path (the server accepts the PUT, adding the
path). -/
def upload_file (st : DriveState) (file_path : String) : OpResult :=
  match splitLastSlash file_path.toList with
  | some (parent, _) =>
    let r := ensure_folder_exists st (String.mk parent)
    match r.err with
    | some e => ⟨r.state, r.reqs, some e⟩
    | none =>
      ⟨⟨file_path :: r.state.paths⟩, r.reqs ++ [DriveReq.putContent file_path], none⟩
  | none =>
    ⟨⟨file_path :: st.paths⟩, [DriveReq.putContent file_path], none⟩

/-- Selects the path of a create-folder request. -/
def reqCreate : DriveReq → Option String
  | DriveReq.createFolder p => some p
  | _ => none

/-- The create-folder requests of an operation, in order. -/
def createsOf (r : OpResult) : List String :=
  r.reqs.filterMap reqCreate

/-- The cumulative nonempty prefixes produced by walking a segment list
from a given current path. -/
def cumFrom (current : String) : List String → List String
  | [] => []
  | part :: rest =>
    if part = "" then cumFrom current rest
    else joinPath current part :: cumFrom (joinPath current part) rest

/-- The ordered cumulative prefixes of a folder path, root to leaf. -/
def cumPrefixes (p : String) : List String :=
  cumFrom "" (splitChar '/' p)

/-! ## Credential manager (OneDriveClient._get_access_token) -/

/-- The body of a successful token-endpoint response: the access token and
the optional expires_in field. -/
structure TokenResponse where
  access_token : String
  expires_in : Option Int
deriving DecidableEq, Repr

/-- The mutable credential state of the client: the cached access token
(None at construction) and its recorded expiry (0 at construction). -/
structure CredState where
  access_token : Option String
  token_expires_at : Int
deriving DecidableEq, Repr

/-- The credential state right after __init__. -/
def initCredState : CredState :=
  ⟨none, 0⟩

/-- Python truthiness of the cached access_token field: None and the empty
string are falsy. -/
def tokenTruthy : Option String → Bool
  | none => false
  | some s => !(s == "")

/-- Result of one _get_access_token call: the updated state, the returned
token, and whether a refresh request was performed. -/
structure TokenCallResult where
  state : CredState
  token : String
  refreshed : Bool
deriving DecidableEq, Repr

/-- Embedding of OneDriveClient._get_access_token: return the cached token
when it is truthy and now is strictly before expiry minus the 300 second
buffer; otherwise exchange the refresh token (response passed in as resp),
cache the new token and set expiry to now plus expires_in, defaulting to
3600.  The two time.time() reads of one call are modelled as the single
timestamp now. -/
def get_access_token (st : CredState) (now : Int) (resp : TokenResponse) :
    TokenCallResult :=
  if tokenTruthy st.access_token ∧ now < st.token_expires_at - 300 then
    ⟨st, st.access_token.getD "", false⟩
  else
    let expires_in := resp.expires_in.getD 3600
    ⟨⟨some resp.access_token, now + expires_in⟩, resp.access_token, true⟩

/-! ## Model completion layer (app/image_processor_gh.py)

A chat completion sent over the network is recorded as a NetCall; the
model's answer is supplied by an oracle function from the system prompt
and the user payload to the response text. -/

/-- A network request to the model endpoint. -/
inductive NetCall where
  | imageCompletion (systemPrompt : String) (encodedImage : String)
  | textCompletion (systemPrompt : String) (text : String)
deriving DecidableEq, Repr

/-- Oracle for model responses: answer to an image completion and to a
text completion, as functions of the system prompt and the payload. -/
structure ModelOracle where
  image : String → String → String
  text : String → String → String

/-- Embedding of execute_image_completion: validate client, encoded_image
and system_prompt in that order, raising ValueError (the message) before
any network call; only with all three present is the single chat
completion issued.  The returned list is the network calls made. -/
def execute_image_completion (client : Option Unit) (encoded_image : Option String)
    (system_prompt : Option String) (o : ModelOracle) :
    Except String String × List NetCall :=
  match client with
  | none => (Except.error "client parameter is required.", [])
  | some _ =>
    match encoded_image with
    | none => (Except.error "encoded_image parameter is required.", [])
    | some img =>
      match system_prompt with
      | none => (Except.error "system_prompt parameter is required.", [])
      | some sp =>
        (Except.ok (o.image sp img), [NetCall.imageCompletion sp img])

/-- Embedding of execute_text_completion: validate client, text and
system_prompt in that order, raising ValueError before any network call;
only with all three present is the single chat completion issued. -/
def execute_text_completion (client : Option Unit) (text : Option String)
    (system_prompt : Option String) (o : ModelOracle) :
    Except String String × List NetCall :=
  match client with
  | none => (Except.error "client parameter is required.", [])
  | some _ =>
    match text with
    | none => (Except.error "text parameter is required.", [])
    | some t =>
      match system_prompt with
      | none => (Except.error "system_prompt parameter is required.", [])
      | some sp =>
        (Except.ok (o.text sp t), [NetCall.textCompletion sp t])

/-- True exactly when the call raised. -/
def isErr {ε α : Type} : Except ε α → Bool
  | Except.error _ => true
  | Except.ok _ => false

/-! ## Extraction pipeline (NoteProcessor.process_image) -/

/-- The prompt texts loaded at NoteProcessor construction. -/
structure Prompts where
  detectNoteType : String
  ocrImage : String
  ocrPaper : String
  ocrWhiteboard : String
  proofread : String
  sectionHeader : String
  extractMainTitle : String
deriving DecidableEq, Repr

/-- Collaborator functions used by process_image that live outside the
client code: base64 encoding (stdlib) and the two post_processor text
transformers (module not under src), all treated as opaque functions. -/
structure Collaborators where
  b64encode : Bytes → String
  removeMarkdownCodeBlocks : String → String
  addDatestamp : String → String

/-- The dictionary returned by process_image. -/
structure ProcessOutput where
  noteType : String
  extractedTitle : String
  extractedText : String
deriving DecidableEq, Repr

/-- Embedding of NoteProcessor.process_image: classify the image, pick the
OCR prompt by comparing the classification against PAPER and WHITEBOARD,
OCR, then for PAPER or WHITEBOARD run proofread and section-header text
completions in sequence, each consuming the previous output; strip code
fences, extract the title and append the datestamp.  The second component
is the ordered list of network calls made. -/
def process_image (prompts : Prompts) (o : ModelOracle) (collab : Collaborators)
    (client : Option Unit) (image_bytes : Bytes) :
    Except String ProcessOutput × List NetCall :=
  let image_base64 := collab.b64encode image_bytes
  let r1 := execute_image_completion client (some image_base64)
    (some prompts.detectNoteType) o
  match r1.1 with
  | Except.error e => (Except.error e, r1.2)
  | Except.ok note_type =>
    let ocr_prompt :=
      if note_type = "PAPER" then prompts.ocrPaper
      else if note_type = "WHITEBOARD" then prompts.ocrWhiteboard
      else prompts.ocrImage
    let r2 := execute_image_completion client (some image_base64) (some ocr_prompt) o
    match r2.1 with
    | Except.error e => (Except.error e, r1.2 ++ r2.2)
    | Except.ok extracted_text =>
      let refine : Except String String × List NetCall :=
        if note_type = "PAPER" ∨ note_type = "WHITEBOARD" then
          let r3 := execute_text_completion client (some extracted_text)
            (some prompts.proofread) o
          match r3.1 with
          | Except.error e => (Except.error e, r3.2)
          | Except.ok proofed =>
            let r4 := execute_text_completion client (some proofed)
              (some prompts.sectionHeader) o
            match r4.1 with
            | Except.error e => (Except.error e, r3.2 ++ r4.2)
            | Except.ok sectioned => (Except.ok sectioned, r3.2 ++ r4.2)
        else (Except.ok extracted_text, [])
      match refine.1 with
      | Except.error e => (Except.error e, r1.2 ++ r2.2 ++ refine.2)
      | Except.ok refined =>
        let final_text := collab.removeMarkdownCodeBlocks refined
        let r5 := execute_text_completion client (some final_text)
          (some prompts.extractMainTitle) o
        match r5.1 with
        | Except.error e => (Except.error e, r1.2 ++ r2.2 ++ refine.2 ++ r5.2)
        | Except.ok title =>
          (Except.ok ⟨note_type, collab.addDatestamp title, final_text⟩,
            r1.2 ++ r2.2 ++ refine.2 ++ r5.2)

/-! ## Ingestion sweep (app/process_notes.py main)

Each remote or model call made for one file is a collaborator whose
outcome is given up front in a StepOutcomes record: ok with the produced
value, or error when that call raises.  The sweep itself is embedded
faithfully: filtering, the probe try-block, the per-file try-block and the
processed counter. -/

/-- Embedding of pathlib Path(name).suffix.lower() components: the index
of the last occurrence of a character in a list, counted from the front. -/
def rfindIdx (c : Char) : List Char → Option Nat
  | [] => none
  | x :: rest =>
    match rfindIdx c rest with
    | some i => some (i + 1)
    | none => if x = c then some 0 else none

/-- Embedding of Path(name).suffix.lower(): take the final path component,
then the substring from the last dot when that dot is neither the first
nor the last character, then lowercase it. -/
def path_suffix_lower (name : String) : String :=
  let base :=
    match splitLastSlash name.toList with
    | some x => x.2
    | none => name.toList
  let suffix :=
    match rfindIdx '.' base with
    | some i => if 0 < i ∧ i < base.length - 1 then base.drop i else []
    | none => []
  String.mk (suffix.map Char.toLower)

/-- The supported image extensions of the sweep. -/
def supported_extensions : List String :=
  [".jpg", ".jpeg", ".png", ".gif", ".bmp", ".tiff", ".pdf"]

/-- Decidable equality for call outcomes. -/
instance exceptDecEq {ε α : Type} [DecidableEq ε] [DecidableEq α] :
    DecidableEq (Except ε α) := fun x y =>
  match x, y with
  | Except.ok a, Except.ok b =>
    if h : a = b then isTrue (by rw [h])
    else isFalse (by intro he; cases he; exact h rfl)
  | Except.ok _, Except.error _ => isFalse (by intro he; cases he)
  | Except.error _, Except.ok _ => isFalse (by intro he; cases he)
  | Except.error a, Except.error b =>
    if h : a = b then isTrue (by rw [h])
    else isFalse (by intro he; cases he; exact h rfl)

/-- The outcome of every fallible call the sweep makes for one file. -/
structure StepOutcomes where
  probeProcessed : Except Unit Bool
  download : Except Unit Bytes
  pdfConvert : Except Unit Bytes
  extract : Except Unit ProcessOutput
  uploadMarkdown : Except Unit Unit
  uploadImage : Except Unit Unit
  move : Except Unit Unit
deriving DecidableEq, Repr

/-- One entry of the source-folder listing, together with the outcomes of
the calls the sweep would make for it. -/
structure SweepFile where
  name : String
  isFolder : Bool
  steps : StepOutcomes
deriving DecidableEq, Repr

/-- What the sweep did with one file. -/
inductive FileResult where
  | skippedUnsupported
  | skippedProcessed
  | failed
  | processed
deriving DecidableEq, Repr

/-- Embedding of one iteration of the sweep loop: skip unsupported
extensions; probe the processed folder, treating a probe exception as not
yet processed; then run download, optional PDF conversion, extraction,
markdown upload, image upload and move inside the per-file try-block,
where the first raising step ends the iteration as failed. -/
def processOne (f : SweepFile) : FileResult :=
  let file_ext := path_suffix_lower f.name
  if file_ext ∉ supported_extensions then FileResult.skippedUnsupported
  else
    let alreadyProcessed :=
      match f.steps.probeProcessed with
      | Except.ok b => b
      | Except.error _ => false
    if alreadyProcessed then FileResult.skippedProcessed
    else
      match f.steps.download with
      | Except.error _ => FileResult.failed
      | Except.ok content =>
        let imageStep :=
          if file_ext = ".pdf" then f.steps.pdfConvert else Except.ok content
        match imageStep with
        | Except.error _ => FileResult.failed
        | Except.ok _ =>
          match f.steps.extract with
          | Except.error _ => FileResult.failed
          | Except.ok _ =>
            match f.steps.uploadMarkdown with
            | Except.error _ => FileResult.failed
            | Except.ok _ =>
              match f.steps.uploadImage with
              | Except.error _ => FileResult.failed
              | Except.ok _ =>
                match f.steps.move with
                | Except.error _ => FileResult.failed
                | Except.ok _ => FileResult.processed

/-- The processed counter over the filtered listing: one per file whose
iteration completed every step. -/
def sweepCount : List SweepFile → Nat
  | [] => 0
  | f :: rest =>
    (if processOne f = FileResult.processed then 1 else 0) + sweepCount rest

/-- Embedding of the listing filter: drop folders and entries whose name
starts with the processed prefix. -/
def preFilter (f : SweepFile) : Bool :=
  !f.isFolder && !(f.name.startsWith "processed/")

/-- The count main reports after the pass. -/
def mainSweep (listing : List SweepFile) : Nat :=
  sweepCount (listing.filter preFilter)

/-- A file the per-file loop does not skip on sight: supported extension
and not reported as already processed (a probe error counts as not
processed). -/
def notMarkedProcessed (f : SweepFile) : Bool :=
  match f.steps.probeProcessed with
  | Except.ok b => !b
  | Except.error _ => true

/-- All fallible steps of one file's iteration succeed: download, PDF
conversion when the extension is pdf, extraction, both uploads and the
move. -/
def stepsAllOk (f : SweepFile) : Bool :=
  !(isErr f.steps.download)
  && (if path_suffix_lower f.name = ".pdf" then !(isErr f.steps.pdfConvert) else true)
  && !(isErr f.steps.extract)
  && !(isErr f.steps.uploadMarkdown)
  && !(isErr f.steps.uploadImage)
  && !(isErr f.steps.move)

/-- A file for which the iteration runs and every step succeeds. -/
def fullySuccessful (f : SweepFile) : Bool :=
  decide (path_suffix_lower f.name ∈ supported_extensions)
  && notMarkedProcessed f && stepsAllOk f

end HandwritingWorkflow

namespace HandwritingWorkflow

/-! ## Claim C1 (corrected) -/

/-- C1 counterexample: the claim says download_file raises a distinct
NotFoundError for status 404, as opposed to the generic error raised for
every other non-2xx status.  In the code both 404 and 500 go through
raise_for_status, which raises the one exception class HTTPError, so the
two failures have the same class; moreover status 304 is non-2xx yet
raises nothing at all. -/
theorem C1_counterexample :
    dlErrClass (download_file ⟨404, []⟩) = dlErrClass (download_file ⟨500, []⟩)
    ∧ dlErrClass (download_file ⟨404, []⟩) = some "HTTPError"
    ∧ download_file ⟨304, [7]⟩ = Except.ok [7] :=
  ⟨rfl, rfl, rfl⟩

/-- C1 amended: download_file performs a single GET and fails with the
same generic HTTPError class, carrying the status code, for status 404 as
for every other 4xx or 5xx status; no distinct not-found error class
exists. -/
theorem C1_theorem (r r2 : HttpResponse)
    (h : 400 ≤ r.status ∧ r.status < 600)
    (h2 : 400 ≤ r2.status ∧ r2.status < 600) :
    download_file r = Except.error (ReqError.httpError r.status)
    ∧ dlErrClass (download_file r) = dlErrClass (download_file r2) := by
  obtain ⟨ha, hb⟩ := h
  obtain ⟨hc, hd⟩ := h2
  constructor
  · simp [download_file, raiseForStatus, ha, hb]
  · simp [download_file, raiseForStatus, dlErrClass, exceptionClass, ha, hb, hc, hd]

/-- C1 witness: the amended statement evaluated at statuses 404 and 500. -/
theorem C1_witness :
    download_file ⟨404, []⟩ = Except.error (ReqError.httpError 404)
    ∧ dlErrClass (download_file ⟨404, []⟩) = dlErrClass (download_file ⟨500, []⟩) :=
  C1_theorem ⟨404, []⟩ ⟨500, []⟩ (by decide) (by decide)

/-! ## Claim C6 (confirmed) -/

/-- C6: file_exists returns true exactly when the metadata GET returned
status 200 and false for any other status, 404 included; the embedding is
a total function because the code has no raise path after the GET. -/
theorem C6_theorem (r : HttpResponse) :
    (file_exists r = true ↔ r.status = 200)
    ∧ (r.status ≠ 200 → file_exists r = false)
    ∧ (r.status = 404 → file_exists r = false) := by
  refine ⟨by simp [file_exists], ?_, ?_⟩
  · intro h
    simp [file_exists, h]
  · intro h
    simp [file_exists, h]

/-- C6 witness: a 404 metadata response yields false, a 200 one true. -/
theorem C6_witness :
    file_exists ⟨404, []⟩ = false ∧ file_exists ⟨200, []⟩ = true :=
  ⟨(C6_theorem ⟨404, []⟩).2.2 rfl, (C6_theorem ⟨200, []⟩).1.mpr rfl⟩

/-! ## Claim C7 (confirmed) -/

/-- C7: the path-to-API-path mapping is pure and satisfies the three
stated equations: the empty path maps to the drive root, a plain path to
its colon-delimited reference, and a leading slash never changes the
result. -/
theorem C7_theorem (p : String) :
    get_drive_path "" = "/drive/root"
    ∧ get_drive_path "a/b" = "/drive/root:/a/b:"
    ∧ get_drive_path ("/" ++ p) = get_drive_path p := by
  refine ⟨rfl, rfl, ?_⟩
  have h : ("/" ++ p).toList = '/' :: p.toList := by
    simp [String.toList]
  unfold get_drive_path
  rw [h]
  simp [lstripChar]

/-! ## Claim C9 (confirmed) -/

/-- C9: a model call with a missing client, missing image or text input,
or missing system prompt fails with the argument-validation error and
issues zero network calls, for both the image-completion and the
text-completion entry points. -/
theorem C9_theorem (client : Option Unit) (x sp : Option String) (o : ModelOracle)
    (h : client = none ∨ x = none ∨ sp = none) :
    (isErr (execute_image_completion client x sp o).1 = true
      ∧ (execute_image_completion client x sp o).2 = [])
    ∧ (isErr (execute_text_completion client x sp o).1 = true
      ∧ (execute_text_completion client x sp o).2 = []) := by
  rcases h with h | h | h
  · subst h
    simp [execute_image_completion, execute_text_completion, isErr]
  · subst h
    cases client <;>
      simp [execute_image_completion, execute_text_completion, isErr]
  · subst h
    cases client <;> cases x <;>
      simp [execute_image_completion, execute_text_completion, isErr]

/-- C9 witness: with the client missing, both entry points raise and make
no network call. -/
theorem C9_witness :
    (isErr (execute_image_completion none (some "img") (some "p")
        ⟨fun _ _ => "", fun _ _ => ""⟩).1 = true
      ∧ (execute_image_completion none (some "img") (some "p")
        ⟨fun _ _ => "", fun _ _ => ""⟩).2 = [])
    ∧ (isErr (execute_text_completion none (some "img") (some "p")
        ⟨fun _ _ => "", fun _ _ => ""⟩).1 = true
      ∧ (execute_text_completion none (some "img") (some "p")
        ⟨fun _ _ => "", fun _ _ => ""⟩).2 = []) :=
  C9_theorem none (some "img") (some "p") ⟨fun _ _ => "", fun _ _ => ""⟩
    (Or.inl rfl)

/-! ## Claim C10 (confirmed) -/

/-- A list without a slash has no last-slash split. -/
theorem splitLastSlash_eq_none {l : List Char} (h : '/' ∉ l) :
    splitLastSlash l = none := by
  induction l with
  | nil => rfl
  | cons c rest ih =>
    have hc : ¬ c = '/' := by
      intro e
      exact h (by simp [e])
    have hr : '/' ∉ rest := fun m => h (List.mem_cons_of_mem c m)
    simp [splitLastSlash, ih hr, hc]

/-- C10: uploading to a slash-free destination path issues the content PUT
and nothing else, with no folder probe or creation; and the folder-ensure
step on the empty path is a no-op issuing no requests. -/
theorem C10_theorem (st : DriveState) (p : String) (h : '/' ∉ p.toList) :
    (upload_file st p).reqs = [DriveReq.putContent p]
    ∧ (∀ st2 : DriveState, ensure_folder_exists st2 "" = ⟨st2, [], none⟩) := by
  constructor
  · have h2 : splitLastSlash p.data = none := splitLastSlash_eq_none h
    simp [upload_file, h2]
  · intro st2
    simp [ensure_folder_exists]

/-- C10 witness: uploading a root-level file name. -/
theorem C10_witness :
    (upload_file ⟨[]⟩ "file.md").reqs = [DriveReq.putContent "file.md"] :=
  (C10_theorem ⟨[]⟩ "file.md" (by decide)).1

/-! ## Claim C4 (confirmed) -/

/-- C4: the token cache never serves a cached token inside the 300 second
expiry buffer; from an empty cache the first call refreshes once and sets
the expiry to now plus expires_in (3600 when absent); a second call
strictly before expiry minus 300 serves the cache without refreshing; a
call at or after that instant refreshes again.  The hypothesis that the
provider returned a nonempty token reflects that the code tests Python
truthiness of the cached token. -/
theorem C4_theorem (t1 t2 t3 : Int) (r1 r2 : TokenResponse)
    (hne : r1.access_token ≠ "")
    (h2 : t2 < t1 + r1.expires_in.getD 3600 - 300)
    (h3 : t1 + r1.expires_in.getD 3600 - 300 ≤ t3) :
    (∀ (st : CredState) (now : Int) (resp : TokenResponse),
      st.token_expires_at - 300 ≤ now →
      (get_access_token st now resp).refreshed = true)
    ∧ (get_access_token initCredState t1 r1).refreshed = true
    ∧ (get_access_token initCredState t1 r1).state.token_expires_at
        = t1 + r1.expires_in.getD 3600
    ∧ (get_access_token (get_access_token initCredState t1 r1).state t2 r2).refreshed
        = false
    ∧ (get_access_token (get_access_token initCredState t1 r1).state t2 r2).token
        = r1.access_token
    ∧ (get_access_token (get_access_token initCredState t1 r1).state t3 r2).refreshed
        = true := by
  have htr : tokenTruthy (some r1.access_token) = true := by
    simp [tokenTruthy, hne]
  refine ⟨?_, ?_, ?_, ?_, ?_, ?_⟩
  · intro st now resp hle
    have hnl : ¬ now < st.token_expires_at - 300 := not_lt.mpr hle
    simp [get_access_token, hnl]
  · simp [get_access_token, initCredState, tokenTruthy]
  · simp [get_access_token, initCredState, tokenTruthy]
  · simp [get_access_token, initCredState, tokenTruthy, htr, h2, hne]
  · simp [get_access_token, initCredState, tokenTruthy, htr, h2, hne]
  · have hnl : ¬ t3 < t1 + r1.expires_in.getD 3600 - 300 := not_lt.mpr h3
    simp [get_access_token, initCredState, tokenTruthy, hnl]

/-- C4 witness: the scenario with a response omitting expires_in (expiry
becomes now plus 3600), a cache hit at 1000 and a refresh at 3300. -/
theorem C4_witness :
    (get_access_token initCredState 0 ⟨"tok", none⟩).refreshed = true
    ∧ (get_access_token initCredState 0 ⟨"tok", none⟩).state.token_expires_at = 3600
    ∧ (get_access_token (get_access_token initCredState 0 ⟨"tok", none⟩).state
        1000 ⟨"tok2", some 100⟩).refreshed = false
    ∧ (get_access_token (get_access_token initCredState 0 ⟨"tok", none⟩).state
        1000 ⟨"tok2", some 100⟩).token = "tok"
    ∧ (get_access_token (get_access_token initCredState 0 ⟨"tok", none⟩).state
        3300 ⟨"tok2", some 100⟩).refreshed = true := by
  have h := C4_theorem 0 1000 3300 ⟨"tok", none⟩ ⟨"tok2", some 100⟩
    (by decide) (by decide) (by decide)
  exact ⟨h.2.1, by simpa using h.2.2.1, h.2.2.2.1, h.2.2.2.2.1, h.2.2.2.2.2⟩

/-! ## Claims C2 and C8: the sweep -/

/-- One iteration counts as processed exactly when the file has a
supported extension, is not marked already processed, and every fallible
step of its iteration succeeds. -/
theorem processOne_processed_iff (f : SweepFile) :
    processOne f = FileResult.processed ↔ fullySuccessful f = true := by
  obtain ⟨name, isFolder, ⟨probe, dl, conv, ext, umd, uimg, mv⟩⟩ := f
  have hpdf : (".pdf" : String) ∈ supported_extensions := by decide
  by_cases h1 : path_suffix_lower name ∈ supported_extensions
  · by_cases h2 : path_suffix_lower name = ".pdf"
    · rcases probe with e | b
      · cases dl <;> cases conv <;> cases ext <;> cases umd <;> cases uimg <;>
          cases mv <;>
          simp [processOne, fullySuccessful, notMarkedProcessed, stepsAllOk,
            isErr, h1, h2, hpdf]
      · cases b <;> cases dl <;> cases conv <;> cases ext <;> cases umd <;>
          cases uimg <;> cases mv <;>
          simp [processOne, fullySuccessful, notMarkedProcessed, stepsAllOk,
            isErr, h1, h2, hpdf]
    · rcases probe with e | b
      · cases dl <;> cases ext <;> cases umd <;> cases uimg <;> cases mv <;>
          simp [processOne, fullySuccessful, notMarkedProcessed, stepsAllOk,
            isErr, h1, h2, hpdf]
      · cases b <;> cases dl <;> cases ext <;> cases umd <;> cases uimg <;>
          cases mv <;>
          simp [processOne, fullySuccessful, notMarkedProcessed, stepsAllOk,
            isErr, h1, h2, hpdf]
  · simp [processOne, fullySuccessful, h1]

/-- The per-file counter of the loop equals the number of fully successful
files of the worklist. -/
theorem sweepCount_eq_length (l : List SweepFile) :
    sweepCount l = (l.filter (fun f => fullySuccessful f)).length := by
  induction l with
  | nil => rfl
  | cons f rest ih =>
    by_cases h : fullySuccessful f = true
    · have hp : processOne f = FileResult.processed :=
        (processOne_processed_iff f).mpr h
      simp [sweepCount, List.filter_cons, h, hp, ih, Nat.add_comm]
    · have hf : fullySuccessful f = false := by
        revert h
        cases fullySuccessful f <;> simp
      have hp : ¬ processOne f = FileResult.processed := by
        intro e
        exact h ((processOne_processed_iff f).mp e)
      simp [sweepCount, List.filter_cons, hf, hp, ih]

/-- C2: every per-file exception is absorbed at that file's boundary, so
the reported count equals exactly the number of eligible files whose
download, optional PDF conversion, extraction, both uploads and move all
succeeded; in the three-file scenario where the second file fails at
download, the count is two. -/
theorem C2_theorem (listing : List SweepFile) :
    mainSweep listing
      = (listing.filter (fun f => preFilter f && fullySuccessful f)).length
    ∧ mainSweep
        [⟨"a.jpg", false, ⟨Except.ok false, Except.ok [1], Except.ok [],
          Except.ok ⟨"IMAGE", "ta", "xa"⟩, Except.ok (), Except.ok (), Except.ok ()⟩⟩,
         ⟨"b.jpg", false, ⟨Except.ok false, Except.error (), Except.ok [],
          Except.ok ⟨"IMAGE", "tb", "xb"⟩, Except.ok (), Except.ok (), Except.ok ()⟩⟩,
         ⟨"c.jpg", false, ⟨Except.ok false, Except.ok [3], Except.ok [],
          Except.ok ⟨"IMAGE", "tc", "xc"⟩, Except.ok (), Except.ok (), Except.ok ()⟩⟩]
      = 2 := by
  constructor
  · rw [mainSweep, sweepCount_eq_length, List.filter_filter]
    have hpc : (fun a => fullySuccessful a && preFilter a)
        = (fun f => preFilter f && fullySuccessful f) := by
      funext a
      exact Bool.and_comm _ _
    rw [hpc]
  · decide

/-- C8: when the already-processed probe itself raises, the iteration
behaves exactly as if the probe had answered false: the file is never
skipped as already processed, and it is counted as processed whenever all
of its remaining steps succeed. -/
theorem C8_theorem (f : SweepFile) (h : f.steps.probeProcessed = Except.error ()) :
    processOne f
      = processOne ⟨f.name, f.isFolder,
          { f.steps with probeProcessed := Except.ok false }⟩
    ∧ processOne f ≠ FileResult.skippedProcessed
    ∧ (stepsAllOk f = true →
        path_suffix_lower f.name ∈ supported_extensions →
        processOne f = FileResult.processed) := by
  obtain ⟨name, isFolder, ⟨probe, dl, conv, ext, umd, uimg, mv⟩⟩ := f
  simp only at h
  subst h
  refine ⟨rfl, ?_, ?_⟩
  · by_cases h1 : path_suffix_lower name ∈ supported_extensions
    · by_cases h2 : path_suffix_lower name = ".pdf"
      · have hpdf : (".pdf" : String) ∈ supported_extensions := by decide
        cases dl <;> cases conv <;> cases ext <;> cases umd <;> cases uimg <;>
          cases mv <;> simp [processOne, h1, h2, hpdf]
      · cases dl <;> cases ext <;> cases umd <;> cases uimg <;> cases mv <;>
          simp [processOne, h1, h2]
    · simp [processOne, h1]
  · intro hok h1
    have : fullySuccessful ⟨name, isFolder,
        ⟨Except.error (), dl, conv, ext, umd, uimg, mv⟩⟩ = true := by
      simp [fullySuccessful, notMarkedProcessed, h1]
      exact hok
    exact (processOne_processed_iff _).mpr this

/-- C8 witness: a jpg file whose probe raises and whose remaining steps
succeed is processed, not skipped. -/
theorem C8_witness :
    processOne ⟨"w.jpg", false, ⟨Except.error (), Except.ok [1], Except.ok [],
        Except.ok ⟨"IMAGE", "t", "x"⟩, Except.ok (), Except.ok (), Except.ok ()⟩⟩
      = processOne ⟨"w.jpg", false, ⟨Except.ok false, Except.ok [1], Except.ok [],
        Except.ok ⟨"IMAGE", "t", "x"⟩, Except.ok (), Except.ok (), Except.ok ()⟩⟩
    ∧ processOne ⟨"w.jpg", false, ⟨Except.error (), Except.ok [1], Except.ok [],
        Except.ok ⟨"IMAGE", "t", "x"⟩, Except.ok (), Except.ok (), Except.ok ()⟩⟩
      ≠ FileResult.skippedProcessed := by
  have h := C8_theorem ⟨"w.jpg", false, ⟨Except.error (), Except.ok [1], Except.ok [],
    Except.ok ⟨"IMAGE", "t", "x"⟩, Except.ok (), Except.ok (), Except.ok ()⟩⟩ rfl
  exact ⟨h.1, h.2.1⟩

/-! ## Claim C3: extraction branch coverage -/

/-- C3: with the client present, a classification of PAPER routes OCR to
the paper prompt and triggers exactly the proofread and section-header
refinement calls in that order, each consuming the previous output;
WHITEBOARD routes to the whiteboard prompt with the same two refinement
calls; any other classification routes to the default OCR prompt and
triggers zero refinement calls, the only remaining text completion being
title extraction. -/
theorem C3_theorem (prompts : Prompts) (o : ModelOracle) (collab : Collaborators)
    (image_bytes : Bytes) :
    (o.image prompts.detectNoteType (collab.b64encode image_bytes) = "PAPER" →
      (process_image prompts o collab (some ()) image_bytes).2 =
        [NetCall.imageCompletion prompts.detectNoteType (collab.b64encode image_bytes),
         NetCall.imageCompletion prompts.ocrPaper (collab.b64encode image_bytes),
         NetCall.textCompletion prompts.proofread
           (o.image prompts.ocrPaper (collab.b64encode image_bytes)),
         NetCall.textCompletion prompts.sectionHeader
           (o.text prompts.proofread
             (o.image prompts.ocrPaper (collab.b64encode image_bytes))),
         NetCall.textCompletion prompts.extractMainTitle
           (collab.removeMarkdownCodeBlocks
             (o.text prompts.sectionHeader
               (o.text prompts.proofread
                 (o.image prompts.ocrPaper (collab.b64encode image_bytes)))))])
    ∧ (o.image prompts.detectNoteType (collab.b64encode image_bytes) = "WHITEBOARD" →
      (process_image prompts o collab (some ()) image_bytes).2 =
        [NetCall.imageCompletion prompts.detectNoteType (collab.b64encode image_bytes),
         NetCall.imageCompletion prompts.ocrWhiteboard (collab.b64encode image_bytes),
         NetCall.textCompletion prompts.proofread
           (o.image prompts.ocrWhiteboard (collab.b64encode image_bytes)),
         NetCall.textCompletion prompts.sectionHeader
           (o.text prompts.proofread
             (o.image prompts.ocrWhiteboard (collab.b64encode image_bytes))),
         NetCall.textCompletion prompts.extractMainTitle
           (collab.removeMarkdownCodeBlocks
             (o.text prompts.sectionHeader
               (o.text prompts.proofread
                 (o.image prompts.ocrWhiteboard (collab.b64encode image_bytes)))))])
    ∧ (o.image prompts.detectNoteType (collab.b64encode image_bytes) ≠ "PAPER" →
       o.image prompts.detectNoteType (collab.b64encode image_bytes) ≠ "WHITEBOARD" →
      (process_image prompts o collab (some ()) image_bytes).2 =
        [NetCall.imageCompletion prompts.detectNoteType (collab.b64encode image_bytes),
         NetCall.imageCompletion prompts.ocrImage (collab.b64encode image_bytes),
         NetCall.textCompletion prompts.extractMainTitle
           (collab.removeMarkdownCodeBlocks
             (o.image prompts.ocrImage (collab.b64encode image_bytes)))]) := by
  refine ⟨?_, ?_, ?_⟩
  · intro h
    simp [process_image, execute_image_completion, execute_text_completion, h]
  · intro h
    simp [process_image, execute_image_completion, execute_text_completion, h]
  · intro h1 h2
    simp [process_image, execute_image_completion, execute_text_completion, h1, h2]

/-- C3 witness: the PAPER branch evaluated with concrete prompts and a
concrete oracle whose classify answer is PAPER. -/
theorem C3_witness :
    (process_image ⟨"P1", "P2", "P3", "P4", "P5", "P6", "P7"⟩
        ⟨fun p _ => if p = "P1" then "PAPER" else "OCR", fun _ _ => "T"⟩
        ⟨fun _ => "IMG", fun s => s, fun s => s⟩ (some ()) [0]).2 =
      [NetCall.imageCompletion "P1" "IMG",
       NetCall.imageCompletion "P3" "IMG",
       NetCall.textCompletion "P5" "OCR",
       NetCall.textCompletion "P6" "T",
       NetCall.textCompletion "P7" "T"] :=
  ( C3_theorem ⟨"P1", "P2", "P3", "P4", "P5", "P6", "P7"⟩
    ⟨fun p _ => if p = "P1" then "PAPER" else "OCR", fun _ _ => "T"⟩
    ⟨fun _ => "IMG", fun s => s, fun s => s⟩ [0]).1 (by decide)

/-! ## Claim C5: idempotent folder creation -/

/-- The existence probe over the modelled server answers membership. -/
theorem probe_mem (st : DriveState) (p : String) :
    file_exists (serverGetStatus st p) = true ↔ p ∈ st.paths := by
  by_cases h : p ∈ st.paths <;> simp [file_exists, serverGetStatus, h]

/-- A create-folder call always issues exactly one create request. -/
theorem create_folder_reqs (st : DriveState) (p : String) :
    (create_folder st p).reqs = [DriveReq.createFolder p] := by
  by_cases h : p ∈ st.paths <;>
    simp [create_folder, serverCreateFolder, raiseForStatus, h]

/-- A create-folder call never raises: a fresh path is created with 201
and an existing one answers 409, which the client tolerates. -/
theorem create_folder_err (st : DriveState) (p : String) :
    (create_folder st p).err = none := by
  by_cases h : p ∈ st.paths <;>
    simp [create_folder, serverCreateFolder, raiseForStatus, h]

/-- The state after a create-folder call. -/
theorem create_folder_state (st : DriveState) (p : String) :
    (create_folder st p).state = if p ∈ st.paths then st else ⟨p :: st.paths⟩ := by
  by_cases h : p ∈ st.paths <;>
    simp [create_folder, serverCreateFolder, raiseForStatus, h]

/-- Unfolding createsOf. -/
theorem createsOf_def (r : OpResult) :
    createsOf r = r.reqs.filterMap reqCreate :=
  rfl

/-- A probe request contributes no create. -/
theorem filterMap_reqCreate_probe (x : String) (l : List DriveReq) :
    List.filterMap reqCreate (DriveReq.probe x :: l) = List.filterMap reqCreate l := by
  simp [reqCreate]

/-- A create request contributes its path. -/
theorem filterMap_reqCreate_create (x : String) (l : List DriveReq) :
    List.filterMap reqCreate (DriveReq.createFolder x :: l)
      = x :: List.filterMap reqCreate l := by
  simp [reqCreate]

/-- A nonempty string has positive length. -/
theorem length_pos_of_ne_empty {s : String} (h : s ≠ "") : 0 < s.length := by
  cases s with
  | mk data =>
    cases data with
    | nil => exact absurd rfl h
    | cons c cs => simp [String.length]

/-- Extending the cumulative path with a nonempty segment strictly grows
its length. -/
theorem joinPath_length_lt {current part : String} (h : part ≠ "") :
    current.length < (joinPath current part).length := by
  unfold joinPath
  by_cases hc : current = ""
  · simpa [hc] using length_pos_of_ne_empty h
  · have := length_pos_of_ne_empty h
    simp [hc, String.length_append]
    omega

/-- Every cumulative prefix generated from a current path is strictly
longer than that current path. -/
theorem cumFrom_length (parts : List String) :
    ∀ (current : String) (q : String), q ∈ cumFrom current parts →
      current.length < q.length := by
  induction parts with
  | nil => intro current q hq; simp [cumFrom] at hq
  | cons part rest ih =>
    intro current q hq
    by_cases hp : part = ""
    · rw [cumFrom, if_pos hp] at hq
      exact ih current q hq
    · rw [cumFrom, if_neg hp] at hq
      rcases List.mem_cons.mp hq with h | h
      · rw [h]
        exact joinPath_length_lt hp
      · exact lt_trans (joinPath_length_lt hp) (ih (joinPath current part) q h)

/-- The walk never raises. -/
theorem walkPrefixes_err (parts : List String) :
    ∀ (st : DriveState) (current : String),
      (walkPrefixes st current parts).err = none := by
  induction parts with
  | nil => intro st current; rfl
  | cons part rest ih =>
    intro st current
    by_cases hp : part = ""
    · rw [walkPrefixes, if_pos hp]
      exact ih st current
    · rw [walkPrefixes, if_neg hp]
      by_cases hf : file_exists (serverGetStatus st (joinPath current part)) = true
      · rw [if_pos hf]
        exact ih st (joinPath current part)
      · rw [if_neg hf, create_folder_err]
        exact ih _ (joinPath current part)

/-- The create requests of the walk are exactly the cumulative prefixes
that did not exist when the walk started, in root-to-leaf order. -/
theorem walkPrefixes_creates (parts : List String) :
    ∀ (st : DriveState) (current : String),
      createsOf (walkPrefixes st current parts)
        = (cumFrom current parts).filter (fun q => !(decide (q ∈ st.paths))) := by
  induction parts with
  | nil => intro st current; rfl
  | cons part rest ih =>
    intro st current
    by_cases hp : part = ""
    · rw [walkPrefixes, if_pos hp, cumFrom, if_pos hp]
      exact ih st current
    · rw [walkPrefixes, if_neg hp, cumFrom, if_neg hp]
      by_cases hf : file_exists (serverGetStatus st (joinPath current part)) = true
      · have hmem : joinPath current part ∈ st.paths := (probe_mem st _).mp hf
        rw [if_pos hf, List.filter_cons, if_neg (by simp [hmem])]
        have hL : createsOf ⟨(walkPrefixes st (joinPath current part) rest).state,
            DriveReq.probe (joinPath current part) ::
              (walkPrefixes st (joinPath current part) rest).reqs,
            (walkPrefixes st (joinPath current part) rest).err⟩
            = createsOf (walkPrefixes st (joinPath current part) rest) := by
          rw [createsOf_def, createsOf_def]
          exact filterMap_reqCreate_probe _ _
        rw [hL]
        exact ih st (joinPath current part)
      · have hmem : joinPath current part ∉ st.paths := by
          intro hm
          exact hf ((probe_mem st _).mpr hm)
        rw [if_neg hf, create_folder_err, create_folder_reqs, List.filter_cons,
          if_pos (by simp [hmem])]
        have hst : (create_folder st (joinPath current part)).state
            = ⟨joinPath current part :: st.paths⟩ := by
          rw [create_folder_state, if_neg hmem]
        rw [hst]
        have hL : createsOf ⟨(walkPrefixes ⟨joinPath current part :: st.paths⟩
              (joinPath current part) rest).state,
            DriveReq.probe (joinPath current part) ::
              ([DriveReq.createFolder (joinPath current part)] ++
                (walkPrefixes ⟨joinPath current part :: st.paths⟩
                  (joinPath current part) rest).reqs),
            (walkPrefixes ⟨joinPath current part :: st.paths⟩
              (joinPath current part) rest).err⟩
            = joinPath current part ::
              createsOf (walkPrefixes ⟨joinPath current part :: st.paths⟩
                (joinPath current part) rest) := by
          rw [createsOf_def, createsOf_def, filterMap_reqCreate_probe]
          exact filterMap_reqCreate_create _ _
        rw [hL, ih ⟨joinPath current part :: st.paths⟩ (joinPath current part)]
        have heq : (cumFrom (joinPath current part) rest).filter
              (fun q => !(decide (q ∈
                (⟨joinPath current part :: st.paths⟩ : DriveState).paths)))
            = (cumFrom (joinPath current part) rest).filter
              (fun q => !(decide (q ∈ st.paths))) := by
          apply List.filter_congr
          intro q hq
          have hlen : (joinPath current part).length < q.length :=
            cumFrom_length rest (joinPath current part) q hq
          have hne : q ≠ joinPath current part := by
            intro he
            rw [he] at hlen
            exact lt_irrefl _ hlen
          simp [List.mem_cons, hne]
        rw [heq]

/-- The walk's final state keeps every path that already existed. -/
theorem walkPrefixes_state_mono (parts : List String) :
    ∀ (st : DriveState) (current q : String), q ∈ st.paths →
      q ∈ (walkPrefixes st current parts).state.paths := by
  induction parts with
  | nil => intro st current q hq; exact hq
  | cons part rest ih =>
    intro st current q hq
    by_cases hp : part = ""
    · rw [walkPrefixes, if_pos hp]
      exact ih st current q hq
    · rw [walkPrefixes, if_neg hp]
      by_cases hf : file_exists (serverGetStatus st (joinPath current part)) = true
      · rw [if_pos hf]
        exact ih st (joinPath current part) q hq
      · have hmem : joinPath current part ∉ st.paths := by
          intro hm
          exact hf ((probe_mem st _).mpr hm)
        rw [if_neg hf, create_folder_err]
        have hq2 : q ∈ (create_folder st (joinPath current part)).state.paths := by
          rw [create_folder_state, if_neg hmem]
          exact List.mem_cons_of_mem _ hq
        exact ih _ (joinPath current part) q hq2

/-- After the walk, every cumulative prefix of the walked segments exists. -/
theorem walkPrefixes_state_prefixes (parts : List String) :
    ∀ (st : DriveState) (current q : String), q ∈ cumFrom current parts →
      q ∈ (walkPrefixes st current parts).state.paths := by
  induction parts with
  | nil => intro st current q hq; simp [cumFrom] at hq
  | cons part rest ih =>
    intro st current q hq
    by_cases hp : part = ""
    · rw [cumFrom, if_pos hp] at hq
      rw [walkPrefixes, if_pos hp]
      exact ih st current q hq
    · rw [cumFrom, if_neg hp] at hq
      rw [walkPrefixes, if_neg hp]
      by_cases hf : file_exists (serverGetStatus st (joinPath current part)) = true
      · rw [if_pos hf]
        rcases List.mem_cons.mp hq with h | h
        · rw [h]
          exact walkPrefixes_state_mono rest st (joinPath current part) _
            ((probe_mem st _).mp hf)
        · exact ih st (joinPath current part) q h
      · have hmem : joinPath current part ∉ st.paths := by
          intro hm
          exact hf ((probe_mem st _).mpr hm)
        rw [if_neg hf, create_folder_err]
        rcases List.mem_cons.mp hq with h | h
        · have hq2 : q ∈ (create_folder st (joinPath current part)).state.paths := by
            rw [create_folder_state, if_neg hmem, h]
            exact List.mem_cons_self _ _
          exact walkPrefixes_state_mono rest _ (joinPath current part) q hq2
        · exact ih _ (joinPath current part) q h

/-- The folder-ensure step never raises in this model. -/
theorem ensure_folder_exists_err (st : DriveState) (p : String) :
    (ensure_folder_exists st p).err = none := by
  unfold ensure_folder_exists
  by_cases h0 : p = ""
  · simp [h0]
  · rw [if_neg h0]
    by_cases hf : file_exists (serverGetStatus st p) = true
    · rw [if_pos hf]
    · rw [if_neg hf]
      exact walkPrefixes_err _ st ""

/-- The requests of the ensure step when the top probe reports absence. -/
theorem ensure_folder_exists_reqs (st : DriveState) (p : String) (h0 : p ≠ "")
    (hf : ¬ file_exists (serverGetStatus st p) = true) :
    (ensure_folder_exists st p).reqs
      = DriveReq.probe p :: (walkPrefixes st "" (splitChar '/' p)).reqs := by
  unfold ensure_folder_exists
  rw [if_neg h0, if_neg hf]

/-- The state of the ensure step when the top probe reports absence. -/
theorem ensure_folder_exists_state (st : DriveState) (p : String) (h0 : p ≠ "")
    (hf : ¬ file_exists (serverGetStatus st p) = true) :
    (ensure_folder_exists st p).state
      = (walkPrefixes st "" (splitChar '/' p)).state := by
  unfold ensure_folder_exists
  rw [if_neg h0, if_neg hf]

/-- C5: folder creation is idempotent.  The server answers an existing
path's create with 409 and the client treats that as success; a create
request is issued exactly for the cumulative prefixes, root to leaf, that
did not already exist; the ensure step never raises; and running it a
second time on the same path issues zero create requests and raises no
error. -/
theorem C5_theorem (st : DriveState) (p : String) :
    (p ∈ st.paths →
      (serverCreateFolder st p).2 = 409 ∧ (create_folder st p).err = none)
    ∧ (create_folder st p).err = none
    ∧ (ensure_folder_exists st p).err = none
    ∧ (p ≠ "" → p ∉ st.paths →
        createsOf (ensure_folder_exists st p)
          = (cumPrefixes p).filter (fun q => !(decide (q ∈ st.paths))))
    ∧ createsOf (ensure_folder_exists (ensure_folder_exists st p).state p) = []
    ∧ (ensure_folder_exists (ensure_folder_exists st p).state p).err = none := by
  refine ⟨?_, create_folder_err st p, ensure_folder_exists_err st p, ?_, ?_,
    ensure_folder_exists_err _ p⟩
  · intro h
    exact ⟨by simp [serverCreateFolder, h], create_folder_err st p⟩
  · intro h0 hmem
    have hf : ¬ file_exists (serverGetStatus st p) = true := by
      intro hx
      exact hmem ((probe_mem st p).mp hx)
    rw [createsOf_def, ensure_folder_exists_reqs st p h0 hf,
      filterMap_reqCreate_probe, ← createsOf_def,
      walkPrefixes_creates (splitChar '/' p) st ""]
    rfl
  · by_cases h0 : p = ""
    · simp [ensure_folder_exists, h0, createsOf]
    · by_cases hmem : p ∈ st.paths
      · have hstate : (ensure_folder_exists st p).state = st := by
          unfold ensure_folder_exists
          rw [if_neg h0, if_pos ((probe_mem st p).mpr hmem)]
        rw [hstate]
        unfold ensure_folder_exists
        rw [if_neg h0, if_pos ((probe_mem st p).mpr hmem)]
        rfl
      · have hf : ¬ file_exists (serverGetStatus st p) = true := by
          intro hx
          exact hmem ((probe_mem st p).mp hx)
        rw [ensure_folder_exists_state st p h0 hf]
        by_cases hf2 : file_exists (serverGetStatus
            (walkPrefixes st "" (splitChar '/' p)).state p) = true
        · unfold ensure_folder_exists
          rw [if_neg h0, if_pos hf2]
          rfl
        · rw [createsOf_def, ensure_folder_exists_reqs _ p h0 hf2,
            filterMap_reqCreate_probe, ← createsOf_def,
            walkPrefixes_creates (splitChar '/' p) _ ""]
          rw [List.filter_eq_nil_iff]
          intro q hq
          have hall : q ∈ (walkPrefixes st "" (splitChar '/' p)).state.paths :=
            walkPrefixes_state_prefixes (splitChar '/' p) st "" q hq
          simp [hall]

/-- C5 witness: creating x/y/z on an empty drive issues one create per
segment; running it again issues zero creates and no error; creating an
already existing folder is answered with 409 and succeeds. -/
theorem C5_witness :
    createsOf (ensure_folder_exists ⟨[]⟩ "x/y/z") = ["x", "x/y", "x/y/z"]
    ∧ createsOf (ensure_folder_exists (ensure_folder_exists ⟨[]⟩ "x/y/z").state
        "x/y/z") = []
    ∧ (ensure_folder_exists (ensure_folder_exists ⟨[]⟩ "x/y/z").state "x/y/z").err
        = none
    ∧ (serverCreateFolder ⟨["x"]⟩ "x").2 = 409
    ∧ (create_folder ⟨["x"]⟩ "x").err = none := by
  have h1 := C5_theorem ⟨[]⟩ "x/y/z"
  have h2 := ( C5_theorem ⟨["x"]⟩ "x").1 (by decide)
  refine ⟨?_, h1.2.2.2.2.1, h1.2.2.2.2.2, h2.1, h2.2⟩
  have h4 := h1.2.2.2.1 (by decide) (by decide)
  rw [h4]
  decide


end HandwritingWorkflow
